import Mathlib

/-!
# Verification of the entity-partitioned anomaly-scoring pipeline

Shallow embedding of `src/iotfunctions/anomaly.py` (classes
`NoDataAnomalyScore`, `SpectralAnomalyScore`, `KMeansAnomalyScore` and the
module-level helper `custom_resampler`, plus the dead scaffold class
`ASAnomalyHandler`).

Modelling conventions:
* Timestamps and numeric values are rationals (the float arithmetic of the
  source is modelled exactly, overflow/rounding being irrelevant to the
  claims under scrutiny).
* A missing value (pandas `NaN` / numpy `np.nan` in a data column) is
  `Option.none`; a present value `x` is `some x`.
* The multi-entity table is a list of rows `(entity, timestamp, input value)`
  in caller order; the transformer result carries one extra output column.
* Third-party numeric collaborators that the source calls but does not
  define (`scipy.signal.spectrogram`, `numpy.log10`, the square root inside
  `numpy.std`, and pyod's fitted `CBLOF.decision_scores_`) enter the
  embedding as explicit function arguments; every claim proved here holds
  for all instantiations of them.
-/

namespace Anomaly

/-- A row of the caller's multi-entity time series table: entity identifier,
timestamp (in seconds, as a rational) and the value of the configured input
column (`none` models a NaN cell). -/
structure Row where
  entity : Nat
  ts : ℚ
  val : Option ℚ
  deriving DecidableEq

/-- A row of the working copy `df_copy`: the original row plus the output
column added by `df_copy[self.output_item] = 0` (an `Option ℚ` because the
realignment merge can deposit NaN into it). -/
structure WRow where
  entity : Nat
  ts : ℚ
  val : Option ℚ
  out : Option ℚ
  deriving DecidableEq

/-- Forget the output column of a working row, recovering the caller's row.
Used to state that `execute` changes nothing except the output column. -/
def WRow.project (r : WRow) : Row :=
  ⟨r.entity, r.ts, r.val⟩

/-- `df_copy[self.output_item] = 0`: attach the output column, initialised
to `0` for every record. -/
def withOutputInit (df : List Row) : List WRow :=
  df.map (fun r => ⟨r.entity, r.ts, r.val, some 0⟩)

/-- `df_copy.loc[[entity]]`: the rows of one entity, in table order. -/
def sliceE (t : List WRow) (e : Nat) : List WRow :=
  t.filter (fun r => r.entity == e)

/-- `np.unique(df.index.levels[0])`: the distinct entity identifiers,
sorted ascending. -/
def entitiesOf (df : List Row) : List Nat :=
  List.insertionSort (· ≤ ·) (df.map (fun r => r.entity)).dedup

/-- `dfe.reset_index(level=[0]).sort_index()`: sort an entity slice by
timestamp (timestamps are unique within an entity, so stability is moot). -/
def sortTs (s : List WRow) : List WRow :=
  List.insertionSort (fun a b => a.ts ≤ b.ts) s

/-- `dfe.dropna(how='all')`: drop rows whose data columns (input column and
output column) are all NaN.  Because the output column is initialised to a
real `0` before any entity is processed, this never drops a row in context. -/
def dropnaAll (s : List WRow) : List WRow :=
  s.filter (fun r => !(r.val.isNone && r.out.isNone))

/-- `index.to_series().diff()`: successive timestamp differences (the list
is empty when the slice has fewer than two records, mirroring an all-NaT
diff column). -/
def diffsOf (ts : List ℚ) : List ℚ :=
  List.zipWith (fun a b => a - b) ts.tail ts

/-- `mindelta = dfe_orig.index.to_series().diff().min()` followed by
`if mindelta == dt.timedelta(seconds=0) or pd.isnull(mindelta):
mindelta = pd.Timedelta('5 seconds')`. -/
def minDelta (ts : List ℚ) : ℚ :=
  match (diffsOf ts).min? with
  | none => 5
  | some m => if m = 0 then 5 else m

/-- The raw minimum before the defaulting step (`none` models NaT). -/
def minDeltaRaw (ts : List ℚ) : Option ℚ :=
  (diffsOf ts).min?

/-- Arithmetic mean of a list of rationals (`numpy`/pandas mean; the empty
case is unreachable where the source takes a mean). -/
def meanQ (xs : List ℚ) : ℚ :=
  xs.sum / xs.length

/-- The raw mean of successive differences before defaulting (`none`
models NaT, i.e. fewer than two records). -/
def meanDeltaRaw (ts : List ℚ) : Option ℚ :=
  match diffsOf ts with
  | [] => none
  | ds => some (meanQ ds)

/-- `meandelta = dfe_orig.index.to_series().diff().mean()` followed by
`if meandelta == dt.timedelta(seconds=0) or pd.isnull(meandelta):
meandelta = mindelta` (note: the source substitutes `mindelta`, not the
5-second literal). -/
def meanDelta (ts : List ℚ) : ℚ :=
  match meanDeltaRaw ts with
  | none => minDelta ts
  | some m => if m = 0 then minDelta ts else m

/-- The last row strictly before position `i` carrying a present value,
as `(timestamp, value)`. -/
def lastValidBefore (rows : List WRow) (i : Nat) : Option (ℚ × ℚ) :=
  ((rows.take i).reverse.find? (fun r => r.val.isSome)).bind
    (fun r => r.val.map (fun v => (r.ts, v)))

/-- The first row at position `i` or later carrying a present value. -/
def firstValidFrom (rows : List WRow) (i : Nat) : Option (ℚ × ℚ) :=
  ((rows.drop i).find? (fun r => r.val.isSome)).bind
    (fun r => r.val.map (fun v => (r.ts, v)))

/-- `dfe.interpolate(method='time')` on the input column: a NaN between two
valid samples becomes the time-weighted linear interpolation of its
neighbours; a NaN after the last valid sample is padded with that sample's
value (pandas' forward fill at the tail); a NaN before the first valid
sample stays NaN. -/
def timeInterp (rows : List WRow) : List WRow :=
  rows.enum.map (fun p =>
    match p.2.val with
    | some _ => p.2
    | none =>
        match lastValidBefore rows p.1, firstValidFrom rows (p.1 + 1) with
        | some (tj, vj), some (tk, vk) =>
            { p.2 with val := some (vj + (vk - vj) * (p.2.ts - tj) / (tk - tj)) }
        | some (_, vj), none => { p.2 with val := some vj }
        | none, _ => p.2)

/-- `temperature = dfe[[self.input_item]].fillna(0).to_numpy().reshape(-1,)`
computed from the entity slice `s` the way `SpectralAnomalyScore.execute`
and `KMeansAnomalyScore.execute` build it: drop all-NaN rows, sort by
timestamp, time-interpolate, then fill residual NaN with `0`. -/
def temperatureOf (s : List WRow) : List ℚ :=
  (timeInterp (sortTs (dropnaAll s))).map (fun r => r.val.getD 0)

/-- The timestamp index attached to the interpolated frame `dfe` (the right
side of the realignment merge for the spectral and clustering scorers). -/
def dfeTsOf (s : List WRow) : List ℚ :=
  (timeInterp (sortTs (dropnaAll s))).map (fun r => r.ts)

/-- Module-level `custom_resampler`: the first value that fell into a
resampling bucket — including a NaN first value — or NaN for an empty
bucket. -/
def custom_resampler (vals : List (Option ℚ)) : Option ℚ :=
  match vals with
  | [] => none
  | v :: _ => v

/-- `dfe_orig.resample(meandelta)`: partition a (time-sorted) entity slice
into regular buckets of width `delta`, keyed by the bucket's left edge.
Edges are aligned to multiples of `delta` (pandas' default bin origin) and
cover the slice's first through last timestamp. -/
def resampleBuckets (rows : List WRow) (delta : ℚ) : List (ℚ × List WRow) :=
  match rows.head?, rows.getLast? with
  | some r0, some rl =>
      let e0 : ℚ := delta * (Rat.floor (r0.ts / delta) : ℤ)
      let nb : Nat := (Rat.floor ((rl.ts - e0) / delta)).toNat + 1
      (List.range nb).map (fun i : Nat =>
        let lo := e0 + (i : ℚ) * delta
        (lo, rows.filter (fun r => decide (lo ≤ r.ts) && decide (r.ts < lo + delta))))
  | _, _ => []

/-- Lines 182–183 of the source:
`upsampled_na = dfe_orig.resample(meandelta).apply(custom_resampler)` and
`dfe = upsampled_na.where(upsampled_na.isna(), 0).fillna(1)` restricted to
the input column: each bucket keyed by its grid timestamp is mapped to `1`
when its resampled value is NaN and to `0` otherwise. -/
def noDataGapOf (rows : List WRow) (delta : ℚ) : List (ℚ × ℚ) :=
  (resampleBuckets rows delta).map (fun b =>
    (b.1, if custom_resampler (b.2.map (fun r => r.val)) = none then 1 else 0))

/-- Dot product of two rational vectors (`np.dot` on 1-D arrays). -/
def dotQ (xs ys : List ℚ) : ℚ :=
  (List.zipWith (fun a b => a * b) xs ys).sum

/-- Lines 337–339 of the source, transcribed operation by operation:
`freqsTSb = (freqsTS > 2/self.windowsize).astype(int)`,
`freqsTS = freqsTS * freqsTSb`, `freqsTS[freqsTS == 0] = 1/self.windowsize`. -/
def maskedFreqs (w : Nat) (freqs : List ℚ) : List ℚ :=
  let freqsTSb := freqs.map (fun f => if 2 / (w : ℚ) < f then (1 : ℚ) else 0)
  let masked := List.zipWith (fun a b => a * b) freqs freqsTSb
  masked.map (fun f => if f = 0 then 1 / (w : ℚ) else f)

/-- `np.dot(SxTS.T, freqsTS)`: one energy per spectrogram segment, the dot
product of the segment's magnitude column with the frequency axis.  `sx` is
the transposed magnitude grid: one inner list of per-frequency magnitudes
per segment. -/
def segmentEnergies (sx : List (List ℚ)) (freqs : List ℚ) : List ℚ :=
  sx.map (fun seg => dotQ seg freqs)

/-- `(ETS - ETS.mean())/ETS.std(ddof=0)`: z-score against the population
standard deviation.  `sq` models the square root used inside `numpy.std`. -/
def zscoreQ (sq : ℚ → ℚ) (xs : List ℚ) : List ℚ :=
  let m := meanQ xs
  let sd := sq (meanQ (xs.map (fun x => (x - m) * (x - m))))
  xs.map (fun x => (x - m) / sd)

/-- Lines 332–345 (`SpectralAnomalyScore`): mask the frequency axis, take
per-segment energies, apply `np.log10` (modelled by `l10`), then z-score. -/
def spectralFeature (sq l10 : ℚ → ℚ) (w : Nat) (freqs : List ℚ)
    (sx : List (List ℚ)) : List ℚ :=
  zscoreQ sq ((segmentEnergies sx (maskedFreqs w freqs)).map l10)

/-- Lines 198–211 (`NoDataAnomalyScore`): same as `spectralFeature` but on
the linear energy, without the base-10 logarithm. -/
def noDataFeature (sq : ℚ → ℚ) (w : Nat) (freqs : List ℚ)
    (sx : List (List ℚ)) : List ℚ :=
  zscoreQ sq (segmentEnergies sx (maskedFreqs w freqs))

/-- Evaluate the piecewise-linear interpolant through the knot list
(`scipy.interpolate.interp1d(..., kind='linear', fill_value='extrapolate')`):
before the first knot and after the last one the adjacent segment is
extrapolated.  Degenerate knot lists (where scipy would raise) are made
total: no knots gives `0`, a single knot gives its value. -/
def interpSeg : List (ℚ × ℚ) → ℚ → ℚ
  | [], _ => 0
  | [(_, y)], _ => y
  | (x1, y1) :: (x2, y2) :: rest, t =>
      if t ≤ x2 ∨ rest = [] then
        (if x2 = x1 then y1 else y1 + (y2 - y1) * (t - x1) / (x2 - x1))
      else interpSeg ((x2, y2) :: rest) t

/-- `interp1d(xs, ys, kind='linear', fill_value='extrapolate')` evaluated
at one point. -/
def interp1dLinear (xs ys : List ℚ) (t : ℚ) : ℚ :=
  interpSeg (xs.zip ys) t

/-- The Score Stretcher: `Linear(np.arange(0, n, 1))` — the interpolant
evaluated at the integer positions `0 … n − 1`. -/
def stretchScores (xs ys : List ℚ) (n : Nat) : List ℚ :=
  (List.range n).map (fun i : Nat => interp1dLinear xs ys (i : ℚ))

/-- `np.linspace(a, b, num)`: `num` evenly spaced points from `a` to `b`
inclusive (`[a]` when `num = 1`, empty when `num = 0`). -/
def linspaceQ (a b : ℚ) (num : Nat) : List ℚ :=
  if num = 1 then [a]
  else (List.range num).map
    (fun i : Nat => a + (b - a) * (i : ℚ) / ((num : ℚ) - 1))

/-- `skimage.util.view_as_windows(xs, window_shape=(w,), step=step)`:
overlapping windows of width `w` at stride `step`
(`(len − w) // step + 1` of them). -/
def viewAsWindows (xs : List ℚ) (w step : Nat) : List (List ℚ) :=
  (List.range ((xs.length - w) / step + 1)).map
    (fun i => (xs.drop (i * step)).take w)

/-- Line 481 of the source: the clustering window-center positions
`np.linspace(windowsize//2, n - windowsize//2 + 1, n - windowsize + 1)`
(`//` is integer floor division on the numpy integers involved). -/
def kmeansTimesTS (w n : Nat) : List ℚ :=
  linspaceQ ((w / 2 : Nat) : ℚ) ((n : ℚ) - ((w / 2 : Nat) : ℚ) + 1) (n - w + 1)

/-- Window overlap derived in the constructors: `0` when the (coerced)
window size is `1`, else `windowsize - max(windowsize // 12, 1)`. -/
def windowOverlap (w : Nat) : Nat :=
  if w = 1 then 0 else w - max (w / 12) 1

/-- The candidate of `right` whose timestamp is nearest to `t`
(`merge_asof(..., direction='nearest')`; an exact tie keeps the earlier,
i.e. backward, candidate, as pandas does). -/
def nearestIn (right : List (ℚ × ℚ)) (t : ℚ) : Option (ℚ × ℚ) :=
  right.foldl (fun best p =>
    match best with
    | none => some p
    | some q => if |t - p.1| < |t - q.1| then some p else some q) none

/-- `pd.merge_asof(dfe_orig, dfe[output], left_index=True, right_index=True,
direction='nearest', tolerance=mindelta)` restricted to the merged score
column: for each left timestamp, the nearest right value within `tol`, or
NaN (`none`) when no right timestamp lies within the tolerance. -/
def mergeAsofNearest (leftTs : List ℚ) (right : List (ℚ × ℚ)) (tol : ℚ) :
    List (Option ℚ) :=
  leftTs.map (fun t =>
    match nearestIn right t with
    | none => none
    | some q => if |t - q.1| ≤ tol then some q.2 else none)

/-- Column labels of a `merge_asof` result: columns present on both sides
get the `_x`/`_y` suffixes, the rest keep their names. -/
def mergeColsAsof (leftCols rightCols : List String) : List String :=
  leftCols.map (fun c => if c ∈ rightCols then c ++ "_x" else c) ++
    rightCols.map (fun c => if c ∈ leftCols then c ++ "_y" else c)

/-- Lines 361–367 of the source: pick the merged score column.  The code
checks for `output_item + '_y'` among the merged columns, falls back to the
un-suffixed `output_item` column of the merged frame (the left side's
initial scores), and finally to the raw input column. -/
def selectScore (inp out : String) (mergedY : List (Option ℚ))
    (dfeOrig : List WRow) : List (Option ℚ) :=
  let cols := mergeColsAsof [inp, out] [out]
  if (out ++ "_y") ∈ cols then mergedY
  else if out ∈ cols then dfeOrig.map (fun r => r.out)
  else dfeOrig.map (fun r => r.val)

/-- The realignment step shared by all three transformers (lines 358–367,
495–504 and 224–233): nearest-timestamp merge of the stretched score onto
the entity's original sorted index with tolerance `tol`, then the
column-selection fallback chain. -/
def realignScores (inp out : String) (dfeOrig : List WRow)
    (right : List (ℚ × ℚ)) (tol : ℚ) : List (Option ℚ) :=
  selectScore inp out (mergeAsofNearest (dfeOrig.map (fun r => r.ts)) right tol)
    dfeOrig

/-- Overwrite the output column of a slice positionally with `vs`
(the slice-level effect of `df_copy.loc[idx[entity,:], output] = arr`). -/
def setOuts : List WRow → List (Option ℚ) → List WRow
  | [], _ => []
  | r :: rs, vs => { r with out := vs.headD r.out } :: setOuts rs vs.tail

/-- `df_copy.loc[idx[entity,:], self.output_item] = zScoreII`: write `vs`
positionally into the output column of the rows of entity `e`, leaving all
other rows untouched. -/
def writeEntityOutput : List WRow → Nat → List (Option ℚ) → List WRow
  | [], _, _ => []
  | r :: rs, e, vs =>
      if r.entity == e then
        { r with out := vs.headD r.out } :: writeEntityOutput rs e vs.tail
      else r :: writeEntityOutput rs e vs

/-- One iteration of the per-entity loop, parameterised by the
slice-processing pipeline `p` (which returns `none` when the entity is
skipped by the `temperature.size > windowsize` guard and `some zScoreII`
otherwise). -/
def driverBody (p : List WRow → Option (List (Option ℚ)))
    (t : List WRow) (e : Nat) : List WRow :=
  match p (sliceE t e) with
  | none => t
  | some vs => writeEntityOutput t e vs

/-- The entity driver shared by the three `execute` methods: add the output
column initialised to `0`, then fold the per-entity loop over the distinct
entities. -/
def driverExec (p : List WRow → Option (List (Option ℚ)))
    (df : List Row) : List WRow :=
  (entitiesOf df).foldl (driverBody p) (withOutputInit df)

/-- The effect of one loop iteration on the processed entity's own slice. -/
def evolveSlice (p : List WRow → Option (List (Option ℚ)))
    (s : List WRow) : List WRow :=
  match p s with
  | none => s
  | some vs => setOuts s vs

/-- Interface of `scipy.signal.spectrogram(temperature, fs=1,
window='hanning', nperseg=w, noverlap=ov, detrend=False,
scaling='spectrum')`: from the signal, the window size and the overlap it
returns the frequency axis, the segment-time axis, and the transposed
magnitude grid (one per-frequency column per segment).  The claims hold
for every such collaborator, so it is a parameter of the embedding. -/
def SpectroFn : Type :=
  List ℚ → Nat → Nat → (List ℚ × List ℚ × List (List ℚ))

/-- `zscoreI = Linear(np.arange(0, temperature.size, 1))` of the spectral
scorer: the z-scored features stretched over the spectrogram's segment-time
axis back to the full signal length, as a function of the entity slice. -/
def spectralStretchedOf (sg : SpectroFn) (sq l10 : ℚ → ℚ) (w : Nat)
    (s : List WRow) : List ℚ :=
  let wS := max w 1
  let temperature := temperatureOf s
  let so := sg temperature wS (windowOverlap wS)
  stretchScores so.2.1 (spectralFeature sq l10 wS so.1 so.2.2)
    temperature.length

/-- The body of the `SpectralAnomalyScore.execute` per-entity loop
(lines 304–367) as a function of the entity's slice of `df_copy`:
`none` when the `temperature.size > windowsize` guard fails, otherwise
`some zScoreII`, the realigned per-row scores.  `sg`, `sq` and `l10` model
the scipy spectrogram, the square root inside `numpy.std` and `np.log10`;
`w` is the raw configured window size (coerced with `max w 1` as in the
constructor). -/
def spectralProcessSlice (sg : SpectroFn) (sq l10 : ℚ → ℚ) (w : Nat)
    (inp out : String) (s : List WRow) : Option (List (Option ℚ)) :=
  let wS := max w 1
  let dfeOrig := sortTs s
  let tol := minDelta (dfeOrig.map (fun r => r.ts))
  if wS < (temperatureOf s).length then
    some (realignScores inp out dfeOrig
      ((dfeTsOf s).zip (spectralStretchedOf sg sq l10 w s)) tol)
  else none

/-- `SpectralAnomalyScore.execute` (lines 292–378). -/
def spectralExecute (sg : SpectroFn) (sq l10 : ℚ → ℚ) (w : Nat)
    (inp out : String) (df : List Row) : List WRow :=
  driverExec (spectralProcessSlice sg sq l10 w inp out) df

/-- The signal array the spectral scorer extracts for entity `e`: the
interpolated, NaN-filled input column of the entity's time-sorted slice. -/
def spectralSignal (df : List Row) (e : Nat) : List ℚ :=
  temperatureOf (sliceE (withOutputInit df) e)

/-- The binary gap-indicator signal of the gap scorer, as a function of the
entity slice: the input column of
`upsampled_na.where(upsampled_na.isna(), 0).fillna(1)` (lines 182–189). -/
def noDataSignalOf (s : List WRow) : List ℚ :=
  (noDataGapOf (sortTs s) (meanDelta ((sortTs s).map (fun r => r.ts)))).map
    (fun b => b.2)

/-- The grid timestamps the gap indicator lives on (the resampled index,
i.e. the right side of the gap scorer's realignment merge). -/
def noDataGridTsOf (s : List WRow) : List ℚ :=
  (noDataGapOf (sortTs s) (meanDelta ((sortTs s).map (fun r => r.ts)))).map
    (fun b => b.1)

/-- `zscoreI` of the gap scorer: linear-energy features stretched back to
the gap signal's length. -/
def noDataStretchedOf (sg : SpectroFn) (sq : ℚ → ℚ) (w : Nat)
    (s : List WRow) : List ℚ :=
  let wS := max w 1
  let temperature := noDataSignalOf s
  let so := sg temperature wS (windowOverlap wS)
  stretchScores so.2.1 (noDataFeature sq wS so.1 so.2.2) temperature.length

/-- The body of the `NoDataAnomalyScore.execute` per-entity loop
(lines 160–237): resample the slice at the mean delta, build the binary
gap indicator, and score the indicator signal with the linear-energy
spectral feature. -/
def noDataProcessSlice (sg : SpectroFn) (sq : ℚ → ℚ) (w : Nat)
    (inp out : String) (s : List WRow) : Option (List (Option ℚ)) :=
  let wS := max w 1
  let dfeOrig := sortTs s
  let tol := minDelta (dfeOrig.map (fun r => r.ts))
  if wS < (noDataSignalOf s).length then
    some (realignScores inp out dfeOrig
      ((noDataGridTsOf s).zip (noDataStretchedOf sg sq w s)) tol)
  else none

/-- `NoDataAnomalyScore.execute` (lines 149–241). -/
def noDataExecute (sg : SpectroFn) (sq : ℚ → ℚ) (w : Nat)
    (inp out : String) (df : List Row) : List WRow :=
  driverExec (noDataProcessSlice sg sq w inp out) df

/-- The signal array the gap scorer extracts for entity `e`: the binary
gap indicator over the resampled grid. -/
def noDataSignal (df : List Row) (e : Nat) : List ℚ :=
  noDataSignalOf (sliceE (withOutputInit df) e)

/-- `kmeans_scoreI` of the clustering scorer, as a function of the entity
slice: CBLOF decision scores of the sliding windows, stretched over the
window-center positions back to the full signal length.  The fitted
model's scoring (`cb n_clusters windows`) is a parameter of the embedding
since pyod is a collaborator. -/
def kmeansStretchedOf (cb : Nat → List (List ℚ) → List ℚ) (w : Nat)
    (s : List WRow) : List ℚ :=
  let wS := max w 1
  let temperature := temperatureOf s
  let slices := viewAsWindows temperature wS 1
  let nClus := if 1 < wS then 40 else 20
  stretchScores (kmeansTimesTS wS temperature.length) (cb nClus slices)
    temperature.length

/-- The body of the `KMeansAnomalyScore.execute` per-entity loop
(lines 435–508): slide windows over the interpolated signal, score them
with the fitted CBLOF model, stretch over the window centers, and
realign. -/
def kmeansProcessSlice (cb : Nat → List (List ℚ) → List ℚ) (w : Nat)
    (inp out : String) (s : List WRow) : Option (List (Option ℚ)) :=
  let wS := max w 1
  let dfeOrig := sortTs s
  let tol := minDelta (dfeOrig.map (fun r => r.ts))
  if wS < (temperatureOf s).length then
    some (realignScores inp out dfeOrig
      ((dfeTsOf s).zip (kmeansStretchedOf cb w s)) tol)
  else none

/-- `KMeansAnomalyScore.execute` (lines 426–513). -/
def kmeansExecute (cb : Nat → List (List ℚ) → List ℚ) (w : Nat)
    (inp out : String) (df : List Row) : List WRow :=
  driverExec (kmeansProcessSlice cb w inp out) df

/-! ## Python name- and attribute-resolution model for `ASAnomalyHandler`

`ASAnomalyHandler.__init__` and `ASAnomalyHandler.score` fail by Python's
name-resolution rules before any numeric work can happen, so only those
rules are modelled: an object's attribute dictionary (a fresh instance
starts empty), and function-scope name lookup (a name never assigned in
the function body is looked up among the module's globals, then among the
builtins). -/

/-- A Python runtime error relevant to the scaffold class. -/
inductive PyErr where
  | attributeError (attr : String)
  | nameError (name : String)
  deriving DecidableEq

/-- `self.x` on an object whose attribute dictionary is `attrs`. -/
def pyGetAttr (attrs : List String) (a : String) : Except PyErr Unit :=
  if a ∈ attrs then Except.ok () else Except.error (PyErr.attributeError a)

/-- The names bound at module level in `anomaly.py` (imports, module
constants, the helper function and the four classes). -/
def pyModuleNames : List String :=
  ["dt", "time", "OrderedDict", "np", "sp", "signal", "energy_distance",
   "ski", "skiutil", "CBLOF", "re", "pd", "logging", "warnings", "json",
   "Column", "Integer", "String", "Float", "DateTime", "Boolean", "func",
   "BaseTransformer", "BaseEvent", "BaseSCDLookup", "BaseMetadataProvider",
   "BasePreload", "BaseDatabaseLookup", "BaseDataSource",
   "BaseDBActivityMerge", "BaseSimpleAggregator", "UISingle", "UIMultiItem",
   "UIFunctionOutSingle", "UISingleItem", "UIFunctionOutMulti", "UIMulti",
   "UIExpression", "UIText", "UIStatusFlag", "UIParameters",
   "adjust_probabilities", "reset_df_index", "logger", "PACKAGE_URL",
   "_IS_PREINSTALLED", "custom_resampler", "ASAnomalyHandler",
   "NoDataAnomalyScore", "SpectralAnomalyScore", "KMeansAnomalyScore"]

/-- The Python builtins a bare-name lookup could still reach. -/
def pyBuiltinNames : List String :=
  ["print", "len", "str", "range", "enumerate", "abs", "min", "max"]

/-- Lookup of a bare name that is not assigned anywhere in the enclosing
function body: straight to module globals, then builtins (CPython's
LOAD_GLOBAL). -/
def pyLookupGlobal (n : String) : Except PyErr Unit :=
  if n ∈ pyModuleNames ∨ n ∈ pyBuiltinNames then Except.ok ()
  else Except.error (PyErr.nameError n)

/-- `ASAnomalyHandler.__init__(self, input_item, output_item, scorer)`
(lines 58–67), statement by statement over the attribute dictionary of the
fresh instance.  Its first statement
`self.entities = np.unique(self.df.levels[0])` reads `self.df`, which no
statement ever assigns. -/
def ASAnomalyHandler.init {A B C : Type} (input_item : A) (output_item : B)
    (scorer : C) : Except PyErr (List String) := do
  let attrs : List String := []
  let _ ← pyGetAttr attrs "df"
  let attrs := "entities" :: attrs
  let attrs := "input_item" :: attrs
  let attrs := "output_item" :: attrs
  let _ ← pyGetAttr attrs "df"
  let _ ← pyGetAttr attrs "df"
  pure attrs

/-- `ASAnomalyHandler.score(self, df)` (lines 69–124).  Its first
statement, `for entity in entities:`, evaluates the bare name `entities`,
which is assigned nowhere in the function body, hence resolved against the
module globals and builtins; the loop body would likewise evaluate the
bare name `scorer` (line 94).  Only the failing name resolution is
reachable, so the numeric body is not modelled beyond it. -/
def ASAnomalyHandler.score : Except PyErr Unit := do
  let _ ← pyLookupGlobal "entities"
  let _ ← pyLookupGlobal "scorer"
  pure ()

/-! ## Spec-phrased definitions, for the refinement-style comparisons -/

/-- The spec's wording of the masked frequency axis: bins at or below
`2/windowsize` zeroed, resulting zeros replaced by `1/windowsize` — i.e.
each such bin ends up at `1/windowsize` and every other bin keeps its
frequency. -/
def specMaskedFreqs (w : Nat) (freqs : List ℚ) : List ℚ :=
  freqs.map (fun f => if f ≤ 2 / (w : ℚ) then 1 / (w : ℚ) else f)

/-- The spec's wording of the raw-signal spectral feature: z-score of the
base-10 logarithm of the per-segment energies against the masked axis. -/
def specSpectralFeature (sq l10 : ℚ → ℚ) (w : Nat) (freqs : List ℚ)
    (sx : List (List ℚ)) : List ℚ :=
  zscoreQ sq ((segmentEnergies sx (specMaskedFreqs w freqs)).map l10)

/-- The spec's wording of the gap-presence spectral feature: z-score of
the linear per-segment energies against the masked axis. -/
def specNoDataFeature (sq : ℚ → ℚ) (w : Nat) (freqs : List ℚ)
    (sx : List (List ℚ)) : List ℚ :=
  zscoreQ sq (segmentEnergies sx (specMaskedFreqs w freqs))

/-- The claim's wording of the gap indicator: `1` exactly for a bucket
containing no raw sample. -/
def claimBucketGap (b : List WRow) : ℚ :=
  if b = [] then 1 else 0

/-- The amended wording: `1` for a bucket that is empty or whose first raw
sample carries a missing value (that first value is what
`custom_resampler` forwards), `0` otherwise. -/
def amendedBucketGap (b : List WRow) : ℚ :=
  match b.head? with
  | none => 1
  | some r => if r.val = none then 1 else 0

/-- The claim's wording of the clustering window centers. -/
def specKmeansCenters (w n nw : Nat) : List ℚ :=
  linspaceQ ((w / 2 : Nat) : ℚ) ((n : ℚ) - ((w / 2 : Nat) : ℚ) + 1) nw

/-- `adaptedScore`/`zScoreII` of the spectral scorer for entity `e`: the
realigned per-row scores the loop writes back when the entity is scored. -/
def spectralAdapted (sg : SpectroFn) (sq l10 : ℚ → ℚ) (w : Nat)
    (inp out : String) (df : List Row) (e : Nat) : List (Option ℚ) :=
  let s := sliceE (withOutputInit df) e
  realignScores inp out (sortTs s)
    ((dfeTsOf s).zip (spectralStretchedOf sg sq l10 w s))
    (minDelta ((sortTs s).map (fun r => r.ts)))

/-- `zScoreII` of the gap scorer for entity `e`. -/
def noDataAdapted (sg : SpectroFn) (sq : ℚ → ℚ) (w : Nat)
    (inp out : String) (df : List Row) (e : Nat) : List (Option ℚ) :=
  let s := sliceE (withOutputInit df) e
  realignScores inp out (sortTs s)
    ((noDataGridTsOf s).zip (noDataStretchedOf sg sq w s))
    (minDelta ((sortTs s).map (fun r => r.ts)))

/-- `zScoreII` of the clustering scorer for entity `e`. -/
def kmeansAdapted (cb : Nat → List (List ℚ) → List ℚ) (w : Nat)
    (inp out : String) (df : List Row) (e : Nat) : List (Option ℚ) :=
  let s := sliceE (withOutputInit df) e
  realignScores inp out (sortTs s)
    ((dfeTsOf s).zip (kmeansStretchedOf cb w s))
    (minDelta ((sortTs s).map (fun r => r.ts)))

/-! ## Structural lemmas about the entity driver -/

theorem writeEntityOutput_map_project (t : List WRow) (e : Nat)
    (vs : List (Option ℚ)) :
    (writeEntityOutput t e vs).map WRow.project = t.map WRow.project := by
  induction t generalizing vs with
  | nil => rfl
  | cons r rs ih =>
      by_cases h : r.entity == e
      · simp [writeEntityOutput, h, WRow.project, ih]
      · simp [writeEntityOutput, h, ih]

theorem setOuts_map_project (s : List WRow) (vs : List (Option ℚ)) :
    (setOuts s vs).map WRow.project = s.map WRow.project := by
  induction s generalizing vs with
  | nil => rfl
  | cons r rs ih => simp [setOuts, WRow.project, ih]

theorem setOuts_length (s : List WRow) (vs : List (Option ℚ)) :
    (setOuts s vs).length = s.length := by
  induction s generalizing vs with
  | nil => rfl
  | cons r rs ih => simp [setOuts, ih]

theorem setOuts_map_out {s : List WRow} {vs : List (Option ℚ)}
    (h : vs.length = s.length) :
    (setOuts s vs).map (fun r => r.out) = vs := by
  induction s generalizing vs with
  | nil =>
      cases vs with
      | nil => rfl
      | cons v vt => simp at h
  | cons r rs ih =>
      cases vs with
      | nil => simp at h
      | cons v vt =>
          simp only [setOuts, List.headD, List.tail_cons, List.map_cons]
          simp only [List.length_cons, Nat.succ.injEq] at h
          simp [ih h]

theorem sliceE_writeEntityOutput_self (t : List WRow) (e : Nat)
    (vs : List (Option ℚ)) :
    sliceE (writeEntityOutput t e vs) e = setOuts (sliceE t e) vs := by
  induction t generalizing vs with
  | nil => rfl
  | cons r rs ih =>
      by_cases h : r.entity == e
      · calc sliceE (writeEntityOutput (r :: rs) e vs) e
            = { r with out := vs.headD r.out } ::
                sliceE (writeEntityOutput rs e vs.tail) e := by
              simp [writeEntityOutput, sliceE, List.filter_cons, h]
          _ = { r with out := vs.headD r.out } ::
                setOuts (sliceE rs e) vs.tail := by rw [ih]
          _ = setOuts (sliceE (r :: rs) e) vs := by
              simp [sliceE, List.filter_cons, h, setOuts]
      · calc sliceE (writeEntityOutput (r :: rs) e vs) e
            = sliceE (writeEntityOutput rs e vs) e := by
              simp [writeEntityOutput, sliceE, List.filter_cons, h]
          _ = setOuts (sliceE rs e) vs := ih vs
          _ = setOuts (sliceE (r :: rs) e) vs := by
              simp [sliceE, List.filter_cons, h]

theorem sliceE_writeEntityOutput_other (t : List WRow) {e e' : Nat}
    (vs : List (Option ℚ)) (hne : e' ≠ e) :
    sliceE (writeEntityOutput t e' vs) e = sliceE t e := by
  induction t generalizing vs with
  | nil => rfl
  | cons r rs ih =>
      by_cases h : r.entity == e'
      · have hre : r.entity = e' := by simpa using h
        have hne2 : ¬((r.entity == e) = true) := by simp [hre, hne]
        calc sliceE (writeEntityOutput (r :: rs) e' vs) e
            = sliceE (writeEntityOutput rs e' vs.tail) e := by
              simp [writeEntityOutput, sliceE, List.filter_cons, h, hne2]
          _ = sliceE rs e := ih vs.tail
          _ = sliceE (r :: rs) e := by
              simp [sliceE, List.filter_cons, hne2]
      · by_cases h2 : r.entity == e
        · calc sliceE (writeEntityOutput (r :: rs) e' vs) e
              = r :: sliceE (writeEntityOutput rs e' vs) e := by
                simp [writeEntityOutput, sliceE, List.filter_cons, h, h2]
            _ = r :: sliceE rs e := by rw [ih]
            _ = sliceE (r :: rs) e := by simp [sliceE, List.filter_cons, h2]
        · calc sliceE (writeEntityOutput (r :: rs) e' vs) e
              = sliceE (writeEntityOutput rs e' vs) e := by
                simp [writeEntityOutput, sliceE, List.filter_cons, h, h2]
            _ = sliceE rs e := ih vs
            _ = sliceE (r :: rs) e := by simp [sliceE, List.filter_cons, h2]

theorem sliceE_driverBody_self (p : List WRow → Option (List (Option ℚ)))
    (t : List WRow) (e : Nat) :
    sliceE (driverBody p t e) e = evolveSlice p (sliceE t e) := by
  unfold driverBody evolveSlice
  cases h : p (sliceE t e) with
  | none => rfl
  | some vs => exact sliceE_writeEntityOutput_self t e vs

theorem sliceE_driverBody_other (p : List WRow → Option (List (Option ℚ)))
    (t : List WRow) {e e' : Nat} (hne : e' ≠ e) :
    sliceE (driverBody p t e') e = sliceE t e := by
  unfold driverBody
  cases h : p (sliceE t e') with
  | none => rfl
  | some vs => exact sliceE_writeEntityOutput_other t vs hne

theorem driverBody_map_project (p : List WRow → Option (List (Option ℚ)))
    (t : List WRow) (e : Nat) :
    (driverBody p t e).map WRow.project = t.map WRow.project := by
  unfold driverBody
  cases h : p (sliceE t e) with
  | none => rfl
  | some vs => exact writeEntityOutput_map_project t e vs

theorem foldl_driverBody_map_project
    (p : List WRow → Option (List (Option ℚ))) (l : List Nat) (t : List WRow) :
    (l.foldl (driverBody p) t).map WRow.project = t.map WRow.project := by
  induction l generalizing t with
  | nil => rfl
  | cons a l ih => simp [List.foldl_cons, ih, driverBody_map_project]

theorem sliceE_foldl_not_mem
    (p : List WRow → Option (List (Option ℚ))) {l : List Nat} (t : List WRow)
    {e : Nat} (h : e ∉ l) :
    sliceE (l.foldl (driverBody p) t) e = sliceE t e := by
  induction l generalizing t with
  | nil => rfl
  | cons a l ih =>
      have hae : a ≠ e := fun hc => h (hc ▸ List.mem_cons_self a l)
      have hel : e ∉ l := fun hc => h (List.mem_cons_of_mem a hc)
      simp only [List.foldl_cons]
      rw [ih _ hel, sliceE_driverBody_other p t hae]

theorem sliceE_foldl_mem
    (p : List WRow → Option (List (Option ℚ))) {l : List Nat} (t : List WRow)
    {e : Nat} (hnd : l.Nodup) (h : e ∈ l) :
    sliceE (l.foldl (driverBody p) t) e = evolveSlice p (sliceE t e) := by
  induction l generalizing t with
  | nil => cases h
  | cons a l ih =>
      rcases List.nodup_cons.mp hnd with ⟨hal, hl⟩
      simp only [List.foldl_cons]
      by_cases hae : a = e
      · subst hae
        rw [sliceE_foldl_not_mem p _ hal, sliceE_driverBody_self]
      · have hel : e ∈ l := by
          rcases List.mem_cons.mp h with h1 | h1
          · exact absurd h1.symm hae
          · exact h1
        rw [ih _ hl hel, sliceE_driverBody_other p t hae]

theorem entitiesOf_nodup (df : List Row) : (entitiesOf df).Nodup :=
  (List.perm_insertionSort _ _).nodup_iff.mpr (List.nodup_dedup _)

theorem mem_entitiesOf {df : List Row} {e : Nat} :
    e ∈ entitiesOf df ↔ ∃ r ∈ df, r.entity = e := by
  unfold entitiesOf
  rw [(List.perm_insertionSort _ _).mem_iff, List.mem_dedup, List.mem_map]

theorem withOutputInit_map_project (df : List Row) :
    (withOutputInit df).map WRow.project = df := by
  unfold withOutputInit
  rw [List.map_map]
  exact List.map_id df

theorem sliceE_withOutputInit (df : List Row) (e : Nat) :
    sliceE (withOutputInit df) e =
      (df.filter (fun r => r.entity == e)).map
        (fun r => ⟨r.entity, r.ts, r.val, some 0⟩) := by
  induction df with
  | nil => rfl
  | cons r rs ih =>
      by_cases h : r.entity == e
      · simpa [withOutputInit, sliceE, List.filter_cons, h] using ih
      · simpa [withOutputInit, sliceE, List.filter_cons, h] using ih

theorem out_of_mem_sliceE_init {df : List Row} {e : Nat} {r : WRow}
    (h : r ∈ sliceE (withOutputInit df) e) : r.out = some 0 := by
  rw [sliceE_withOutputInit] at h
  rcases List.mem_map.mp h with ⟨r0, _, rfl⟩
  rfl

theorem driverExec_map_project
    (p : List WRow → Option (List (Option ℚ))) (df : List Row) :
    (driverExec p df).map WRow.project = df := by
  unfold driverExec
  rw [foldl_driverBody_map_project, withOutputInit_map_project]

theorem sliceE_driverExec
    (p : List WRow → Option (List (Option ℚ))) (df : List Row) (e : Nat) :
    sliceE (driverExec p df) e =
      if e ∈ entitiesOf df then evolveSlice p (sliceE (withOutputInit df) e)
      else sliceE (withOutputInit df) e := by
  unfold driverExec
  by_cases h : e ∈ entitiesOf df
  · rw [if_pos h]
    exact sliceE_foldl_mem p _ (entitiesOf_nodup df) h
  · rw [if_neg h]
    exact sliceE_foldl_not_mem p _ h

/-! ## Lemmas about per-entity lengths and the realignment step -/

theorem sortTs_length (s : List WRow) : (sortTs s).length = s.length :=
  (List.perm_insertionSort _ s).length_eq

theorem timeInterp_length (rows : List WRow) :
    (timeInterp rows).length = rows.length := by
  simp [timeInterp]

theorem dropnaAll_eq_self {s : List WRow} (h : ∀ r ∈ s, r.out = some 0) :
    dropnaAll s = s := by
  unfold dropnaAll
  apply List.filter_eq_self.mpr
  intro r hr
  simp [h r hr]

theorem mergeAsofNearest_length (leftTs : List ℚ) (right : List (ℚ × ℚ))
    (tol : ℚ) : (mergeAsofNearest leftTs right tol).length = leftTs.length :=
  List.length_map _ _

theorem mem_cols_selectScore (inp out : String) :
    (out ++ "_y") ∈ mergeColsAsof [inp, out] [out] := by
  unfold mergeColsAsof
  apply List.mem_append_right
  simp

theorem selectScore_eq_mergedY (inp out : String) (m : List (Option ℚ))
    (dfeOrig : List WRow) : selectScore inp out m dfeOrig = m := by
  unfold selectScore
  rw [if_pos (mem_cols_selectScore inp out)]

theorem realignScores_eq_merge (inp out : String) (dfeOrig : List WRow)
    (right : List (ℚ × ℚ)) (tol : ℚ) :
    realignScores inp out dfeOrig right tol =
      mergeAsofNearest (dfeOrig.map (fun r => r.ts)) right tol :=
  selectScore_eq_mergedY _ _ _ _

theorem realignScores_length (inp out : String) (dfeOrig : List WRow)
    (right : List (ℚ × ℚ)) (tol : ℚ) :
    (realignScores inp out dfeOrig right tol).length = dfeOrig.length := by
  rw [realignScores_eq_merge, mergeAsofNearest_length, List.length_map]

theorem nearestIn_mem {right : List (ℚ × ℚ)} {t : ℚ} {q : ℚ × ℚ}
    (h : nearestIn right t = some q) : q ∈ right := by
  unfold nearestIn at h
  suffices H : ∀ (l : List (ℚ × ℚ)) (acc : Option (ℚ × ℚ)),
      l.foldl (fun best p =>
        match best with
        | none => some p
        | some q' => if |t - p.1| < |t - q'.1| then some p else some q') acc
        = some q → q ∈ l ∨ acc = some q by
    rcases H right none h with h' | h'
    · exact h'
    · cases h'
  intro l
  induction l with
  | nil =>
      intro acc hacc
      exact Or.inr hacc
  | cons p l ih =>
      intro acc hacc
      simp only [List.foldl_cons] at hacc
      rcases ih _ hacc with h' | h'
      · exact Or.inl (List.mem_cons_of_mem p h')
      · cases acc with
        | none =>
            have h'' : some p = some q := h'
            have hpq : p = q := Option.some.inj h''
            exact Or.inl (hpq ▸ List.mem_cons_self p l)
        | some q' =>
            have h'' : (if |t - p.1| < |t - q'.1| then some p else some q')
                = some q := h'
            by_cases hlt : |t - p.1| < |t - q'.1|
            · rw [if_pos hlt] at h''
              have hpq : p = q := Option.some.inj h''
              exact Or.inl (hpq ▸ List.mem_cons_self p l)
            · rw [if_neg hlt] at h''
              exact Or.inr h''

theorem mergeAsofNearest_unmatched {leftTs : List ℚ} {right : List (ℚ × ℚ)}
    {tol : ℚ} {i : Nat} {t : ℚ} (ht : leftTs[i]? = some t)
    (h : ∀ p ∈ right, tol < |t - p.1|) :
    (mergeAsofNearest leftTs right tol)[i]? = some none := by
  unfold mergeAsofNearest
  rw [List.getElem?_map, ht]
  simp only [Option.map_some']
  cases hq : nearestIn right t with
  | none => rfl
  | some q =>
      have hmem := nearestIn_mem hq
      have : ¬ |t - q.1| ≤ tol := not_le.mpr (h q hmem)
      simp [this]

/-! ## Per-entity pipeline lemmas -/

theorem spectralProcessSlice_init (sg : SpectroFn) (sq l10 : ℚ → ℚ) (w : Nat)
    (inp out : String) (df : List Row) (e : Nat) :
    spectralProcessSlice sg sq l10 w inp out (sliceE (withOutputInit df) e) =
      if max w 1 < (spectralSignal df e).length then
        some (spectralAdapted sg sq l10 w inp out df e)
      else none := rfl

theorem noDataProcessSlice_init (sg : SpectroFn) (sq : ℚ → ℚ) (w : Nat)
    (inp out : String) (df : List Row) (e : Nat) :
    noDataProcessSlice sg sq w inp out (sliceE (withOutputInit df) e) =
      if max w 1 < (noDataSignal df e).length then
        some (noDataAdapted sg sq w inp out df e)
      else none := rfl

theorem kmeansProcessSlice_init (cb : Nat → List (List ℚ) → List ℚ) (w : Nat)
    (inp out : String) (df : List Row) (e : Nat) :
    kmeansProcessSlice cb w inp out (sliceE (withOutputInit df) e) =
      if max w 1 < (spectralSignal df e).length then
        some (kmeansAdapted cb w inp out df e)
      else none := rfl

theorem temperatureOf_length (s : List WRow) :
    (temperatureOf s).length = (dropnaAll s).length := by
  simp [temperatureOf, timeInterp_length, sortTs_length]

theorem sliceE_init_length (df : List Row) (e : Nat) :
    (sliceE (withOutputInit df) e).length =
      (df.filter (fun r => r.entity == e)).length := by
  rw [sliceE_withOutputInit, List.length_map]

theorem out_default_of_skip {p : List WRow → Option (List (Option ℚ))}
    {df : List Row} {e : Nat}
    (hp : p (sliceE (withOutputInit df) e) = none) :
    ∀ r ∈ driverExec p df, r.entity = e → r.out = some 0 := by
  intro r hr hre
  have hrs : r ∈ sliceE (driverExec p df) e := by
    unfold sliceE
    exact List.mem_filter.mpr ⟨hr, by simp [hre]⟩
  rw [sliceE_driverExec] at hrs
  by_cases hm : e ∈ entitiesOf df
  · rw [if_pos hm] at hrs
    unfold evolveSlice at hrs
    rw [hp] at hrs
    exact out_of_mem_sliceE_init hrs
  · rw [if_neg hm] at hrs
    exact out_of_mem_sliceE_init hrs

theorem mem_entitiesOf_of_slice_ne_nil {df : List Row} {e : Nat}
    (h : sliceE (withOutputInit df) e ≠ []) : e ∈ entitiesOf df := by
  rw [sliceE_withOutputInit] at h
  have h2 : df.filter (fun r => r.entity == e) ≠ [] := by
    intro hc
    rw [hc] at h
    exact h rfl
  rcases List.exists_mem_of_ne_nil _ h2 with ⟨r, hr⟩
  rcases List.mem_filter.mp hr with ⟨hrdf, hrent⟩
  exact mem_entitiesOf.mpr ⟨r, hrdf, by simpa using hrent⟩

theorem slice_ne_nil_of_temperature {df : List Row} {e : Nat}
    (h : 0 < (spectralSignal df e).length) :
    sliceE (withOutputInit df) e ≠ [] := by
  intro hc
  rw [spectralSignal, hc] at h
  simp [temperatureOf, timeInterp, sortTs, dropnaAll] at h

theorem slice_ne_nil_of_noDataSignal {df : List Row} {e : Nat}
    (h : 0 < (noDataSignal df e).length) :
    sliceE (withOutputInit df) e ≠ [] := by
  intro hc
  rw [noDataSignal, hc] at h
  simp [noDataSignalOf, noDataGapOf, resampleBuckets, sortTs] at h

theorem filter_out_eq_of_scored {p : List WRow → Option (List (Option ℚ))}
    {df : List Row} {e : Nat} {vs : List (Option ℚ)}
    (hp : p (sliceE (withOutputInit df) e) = some vs)
    (hlen : vs.length = (sliceE (withOutputInit df) e).length)
    (hm : e ∈ entitiesOf df) :
    ((driverExec p df).filter (fun r => r.entity == e)).map (fun r => r.out)
      = vs := by
  have hs := sliceE_driverExec p df e
  rw [if_pos hm] at hs
  show (sliceE (driverExec p df) e).map (fun r => r.out) = vs
  rw [hs]
  unfold evolveSlice
  rw [hp]
  exact setOuts_map_out hlen

theorem execute_map_key (p : List WRow → Option (List (Option ℚ)))
    (df : List Row) :
    (driverExec p df).map (fun r => (r.entity, r.ts)) =
      df.map (fun r => (r.entity, r.ts)) := by
  have h := driverExec_map_project p df
  calc (driverExec p df).map (fun r => (r.entity, r.ts))
      = ((driverExec p df).map WRow.project).map
          (fun r => (r.entity, r.ts)) := by
        rw [List.map_map]; rfl
    _ = df.map (fun r => (r.entity, r.ts)) := by rw [h]

/-! ## Lemmas about the spectral feature arithmetic -/

theorem maskedFreqs_eq_spec (w : Nat) (freqs : List ℚ) :
    maskedFreqs w freqs = specMaskedFreqs w freqs := by
  show (List.zipWith (fun a b => a * b) freqs
      (freqs.map (fun f => if 2 / (w : ℚ) < f then (1 : ℚ) else 0))).map
      (fun f => if f = 0 then 1 / (w : ℚ) else f) =
    freqs.map (fun f => if f ≤ 2 / (w : ℚ) then 1 / (w : ℚ) else f)
  rw [List.zipWith_map_right, List.zipWith_same, List.map_map]
  have hfun : ((fun f => if f = 0 then 1 / (w : ℚ) else f) ∘
      (fun f => f * (if 2 / (w : ℚ) < f then (1 : ℚ) else 0))) =
      (fun f => if f ≤ 2 / (w : ℚ) then 1 / (w : ℚ) else f) := by
    funext f
    by_cases hf : 2 / (w : ℚ) < f
    · have hnn : (0 : ℚ) ≤ 2 / (w : ℚ) :=
        div_nonneg (by norm_num) (Nat.cast_nonneg w)
      have hf0 : f ≠ 0 := ne_of_gt (lt_of_le_of_lt hnn hf)
      simp [Function.comp, hf, hf0, not_le.mpr hf]
    · simp [Function.comp, hf, not_lt.mp hf]
  rw [hfun]

/-! ## Lemmas about successive differences of a sorted index -/

theorem diffsOf_cons₂ (a b : ℚ) (m : List ℚ) :
    diffsOf (a :: b :: m) = (b - a) :: diffsOf (b :: m) := rfl

theorem diffsOf_nonneg {ts : List ℚ} (hs : List.Sorted (· ≤ ·) ts) :
    ∀ d ∈ diffsOf ts, 0 ≤ d := by
  induction ts with
  | nil => intro d hd; cases hd
  | cons a l ih =>
      cases l with
      | nil => intro d hd; cases hd
      | cons b m =>
          intro d hd
          rw [diffsOf_cons₂] at hd
          rcases List.mem_cons.mp hd with h1 | h1
          · have hab : a ≤ b :=
              (List.sorted_cons.mp hs).1 b (List.mem_cons_self b m)
            subst h1
            exact sub_nonneg.mpr hab
          · exact ih (List.sorted_cons.mp hs).2 d h1

theorem all_zero_of_sum_zero {l : List ℚ} (h0 : ∀ d ∈ l, 0 ≤ d)
    (hsum : l.sum = 0) : ∀ d ∈ l, d = 0 := by
  induction l with
  | nil => intro d hd; cases hd
  | cons a l ih =>
      have ha : 0 ≤ a := h0 a (List.mem_cons_self a l)
      have hl : 0 ≤ l.sum :=
        List.sum_nonneg (fun d hd => h0 d (List.mem_cons_of_mem _ hd))
      have hsum' : a + l.sum = 0 := by simpa using hsum
      have ha0 : a = 0 := le_antisymm (by linarith) ha
      have hl0 : l.sum = 0 := by linarith
      intro d hd
      rcases List.mem_cons.mp hd with h1 | h1
      · exact h1.trans ha0
      · exact ih (fun x hx => h0 x (List.mem_cons_of_mem _ hx)) hl0 d h1

/-! ## Claim theorems -/

/-- C4: for every entity slice and every feature-extraction strategy, the
Score Stretcher's output — the linear interpolant with extrapolation
evaluated at the integer positions `0 … n − 1` — has length exactly the
imputed signal array's length: in general `stretchScores xs ys n` has
`n` entries, and each scorer's stretched array (`zscoreI`,
`kmeans_scoreI`) has the length of the signal it was computed from. -/
theorem C4_stretcher_length (xs ys : List ℚ) (n : Nat) (sg : SpectroFn)
    (sq l10 : ℚ → ℚ) (cb : Nat → List (List ℚ) → List ℚ) (w : Nat)
    (s : List WRow) :
    (stretchScores xs ys n).length = n
    ∧ (spectralStretchedOf sg sq l10 w s).length = (temperatureOf s).length
    ∧ (noDataStretchedOf sg sq w s).length = (noDataSignalOf s).length
    ∧ (kmeansStretchedOf cb w s).length = (temperatureOf s).length := by
  refine ⟨?_, ?_, ?_, ?_⟩
  · simp only [stretchScores, List.length_map, List.length_range]
  · simp only [spectralStretchedOf, stretchScores, List.length_map,
      List.length_range]
  · simp only [noDataStretchedOf, stretchScores, List.length_map,
      List.length_range]
  · simp only [kmeansStretchedOf, stretchScores, List.length_map,
      List.length_range]

/-- C5: for every signal scored by the spectral path, the feature array is
the z-score (population standard deviation, divisor `N`) of the
per-segment energies, each energy being the dot product of a spectrogram
magnitude column with the masked frequency axis (bins at or below
`2/windowsize` zeroed, resulting zeros replaced by `1/windowsize`); the
raw-signal variant applies the base-10 logarithm to the energies before
the z-score, the gap-presence variant uses the linear energies.  Stated as
an equality between the transcription of the source lines and the spec's
formulation, for every spectrogram output and every model of the
collaborators `log10` and the square root inside `std`. -/
theorem C5_spectral_feature_spec (sq l10 : ℚ → ℚ) (w : Nat)
    (freqs : List ℚ) (sx : List (List ℚ)) :
    maskedFreqs w freqs = specMaskedFreqs w freqs
    ∧ spectralFeature sq l10 w freqs sx = specSpectralFeature sq l10 w freqs sx
    ∧ noDataFeature sq w freqs sx = specNoDataFeature sq w freqs sx := by
  refine ⟨maskedFreqs_eq_spec w freqs, ?_, ?_⟩
  · unfold spectralFeature specSpectralFeature
    rw [maskedFreqs_eq_spec]
  · unfold noDataFeature specNoDataFeature
    rw [maskedFreqs_eq_spec]

unseal Rat.add Rat.mul Rat.sub Rat.inv in
/-- C8 (counterexample): the claim predicts gap indicator `0` for every
bucket containing at least one raw sample, but a bucket whose only raw
sample carries a NaN value is marked `1` by the code: with rows at
timestamps `0` (value `1`) and `1` (value NaN) resampled at period `1`,
the code's indicator is `[0, 1]` while the claim's reading demands
`[0, 0]`. -/
theorem C8_counterexample :
    (noDataGapOf
        [⟨7, 0, some 1, some 0⟩, ⟨7, 1, none, some 0⟩] 1).map (fun b => b.2)
      = [0, 1]
    ∧ (resampleBuckets
        [⟨7, 0, some 1, some 0⟩, ⟨7, 1, none, some 0⟩] 1).map
          (fun b => claimBucketGap b.2) = [0, 0]
    ∧ ((resampleBuckets
        [⟨7, 0, some 1, some 0⟩, ⟨7, 1, none, some 0⟩] 1).map
          (fun b => b.2.length)) = [1, 1]
    ∧ ([0, 1] : List ℚ) ≠ [0, 0] := by
  refine ⟨by decide, by decide, by decide, by decide⟩

/-- C8 (amended): the gap signal resamples the slice onto the regular
`mean_delta` grid, takes the first raw value of each bucket
(`custom_resampler`), and marks a bucket `1` exactly when that resampled
value is missing — i.e. when the bucket is empty or its first raw sample
carries a NaN value — and `0` otherwise. -/
theorem C8_gap_indicator (rows : List WRow) (delta : ℚ) :
    noDataGapOf rows delta =
      (resampleBuckets rows delta).map (fun b => (b.1, amendedBucketGap b.2)) := by
  unfold noDataGapOf
  congr 1
  funext b
  rcases b with ⟨t, l⟩
  cases l with
  | nil => rfl
  | cons r rs => cases hv : r.val <;> simp [custom_resampler, amendedBucketGap, hv]

/-- C9: each `execute` returns a table that differs from its input only in
the output column: projecting the output column away from the result of
any of the three transformers recovers the caller's table exactly (same
rows, same order, same entity/timestamp keys, same input values), and the
added output column starts at `0` for every record before the per-entity
overwrites. -/
theorem C9_execute_pure_copy (sg : SpectroFn) (sq l10 : ℚ → ℚ)
    (cb : Nat → List (List ℚ) → List ℚ) (w : Nat) (inp out : String)
    (df : List Row) :
    (spectralExecute sg sq l10 w inp out df).map WRow.project = df
    ∧ (noDataExecute sg sq w inp out df).map WRow.project = df
    ∧ (kmeansExecute cb w inp out df).map WRow.project = df
    ∧ (withOutputInit df).map (fun r => r.out)
        = List.replicate df.length (some 0) := by
  refine ⟨driverExec_map_project _ _, driverExec_map_project _ _,
    driverExec_map_project _ _, ?_⟩
  unfold withOutputInit
  rw [List.map_map]
  exact List.map_const' df (some 0)

/-- C10: `ASAnomalyHandler` can never score: for every argument triple,
`__init__` raises `AttributeError` on its first statement because it reads
`self.df` on a fresh instance with an empty attribute dictionary, and
`score` begins by evaluating the bare names `entities` (and, in its loop
body, `scorer`), neither of which is assigned in the function body, bound
at module level, or a builtin — a `NameError` either way. -/
theorem C10_handler_never_scores {A B C : Type} (input_item : A)
    (output_item : B) (scorer : C) :
    ASAnomalyHandler.init input_item output_item scorer
        = Except.error (PyErr.attributeError "df")
    ∧ ASAnomalyHandler.score = Except.error (PyErr.nameError "entities")
    ∧ pyLookupGlobal "scorer" = Except.error (PyErr.nameError "scorer") := by
  refine ⟨rfl, ?_, ?_⟩
  · have hc : ¬("entities" ∈ pyModuleNames ∨ "entities" ∈ pyBuiltinNames) := by
      decide
    have h : pyLookupGlobal "entities"
        = Except.error (PyErr.nameError "entities") := by
      unfold pyLookupGlobal
      rw [if_neg hc]
    unfold ASAnomalyHandler.score
    rw [h]
    rfl
  · have hc : ¬("scorer" ∈ pyModuleNames ∨ "scorer" ∈ pyBuiltinNames) := by
      decide
    unfold pyLookupGlobal
    rw [if_neg hc]

/-- C1: for every entity whose extracted signal array has length at most
the (coerced) window size, each of the three scoring transformers leaves
the output column at the default `0` for every row of that entity — the
`temperature.size > windowsize` guard skips the entity, so no score is
computed and no write happens. -/
theorem C1_short_signal_default (sg : SpectroFn) (sq l10 : ℚ → ℚ)
    (cb : Nat → List (List ℚ) → List ℚ) (w : Nat) (inp out : String)
    (df : List Row) (e : Nat) :
    ((spectralSignal df e).length ≤ max w 1 →
      ∀ r ∈ spectralExecute sg sq l10 w inp out df,
        r.entity = e → r.out = some 0)
    ∧ ((noDataSignal df e).length ≤ max w 1 →
      ∀ r ∈ noDataExecute sg sq w inp out df, r.entity = e → r.out = some 0)
    ∧ ((spectralSignal df e).length ≤ max w 1 →
      ∀ r ∈ kmeansExecute cb w inp out df, r.entity = e → r.out = some 0) := by
  refine ⟨fun h => ?_, fun h => ?_, fun h => ?_⟩
  · exact out_default_of_skip
      (by rw [spectralProcessSlice_init]; exact if_neg (not_lt.mpr h))
  · exact out_default_of_skip
      (by rw [noDataProcessSlice_init]; exact if_neg (not_lt.mpr h))
  · exact out_default_of_skip
      (by rw [kmeansProcessSlice_init]; exact if_neg (not_lt.mpr h))

/-- C2: the realignment step preserves row count and row identity.  The
`(entity, timestamp)` keys of the returned table equal the input's, and
for every scored entity the realigned score list (`zScoreII`) has exactly
as many entries as the entity's original slice and is written, in order,
into exactly that entity's rows of the shared output column.  Stated for
the two transformers the claim cites (`SpectralAnomalyScore`,
`NoDataAnomalyScore`). -/
theorem C2_realignment_row_identity (sg : SpectroFn) (sq l10 : ℚ → ℚ)
    (w : Nat) (inp out : String) (df : List Row) (e : Nat) :
    ((spectralExecute sg sq l10 w inp out df).map (fun r => (r.entity, r.ts))
        = df.map (fun r => (r.entity, r.ts)))
    ∧ ((noDataExecute sg sq w inp out df).map (fun r => (r.entity, r.ts))
        = df.map (fun r => (r.entity, r.ts)))
    ∧ (max w 1 < (spectralSignal df e).length →
        (spectralAdapted sg sq l10 w inp out df e).length
            = (df.filter (fun r => r.entity == e)).length
        ∧ ((spectralExecute sg sq l10 w inp out df).filter
              (fun r => r.entity == e)).map (fun r => r.out)
            = spectralAdapted sg sq l10 w inp out df e)
    ∧ (max w 1 < (noDataSignal df e).length →
        (noDataAdapted sg sq w inp out df e).length
            = (df.filter (fun r => r.entity == e)).length
        ∧ ((noDataExecute sg sq w inp out df).filter
              (fun r => r.entity == e)).map (fun r => r.out)
            = noDataAdapted sg sq w inp out df e) := by
  refine ⟨execute_map_key _ df, execute_map_key _ df, fun h => ?_, fun h => ?_⟩
  · have h0 : 0 < (spectralSignal df e).length :=
      lt_of_le_of_lt (Nat.zero_le _) h
    have hm : e ∈ entitiesOf df :=
      mem_entitiesOf_of_slice_ne_nil (slice_ne_nil_of_temperature h0)
    have hp : spectralProcessSlice sg sq l10 w inp out
        (sliceE (withOutputInit df) e)
        = some (spectralAdapted sg sq l10 w inp out df e) := by
      rw [spectralProcessSlice_init]
      exact if_pos h
    have hlen : (spectralAdapted sg sq l10 w inp out df e).length
        = (sliceE (withOutputInit df) e).length := by
      simp only [spectralAdapted, realignScores_length, sortTs_length]
    constructor
    · rw [hlen, sliceE_init_length]
    · exact filter_out_eq_of_scored hp hlen hm
  · have h0 : 0 < (noDataSignal df e).length :=
      lt_of_le_of_lt (Nat.zero_le _) h
    have hm : e ∈ entitiesOf df :=
      mem_entitiesOf_of_slice_ne_nil (slice_ne_nil_of_noDataSignal h0)
    have hp : noDataProcessSlice sg sq w inp out
        (sliceE (withOutputInit df) e)
        = some (noDataAdapted sg sq w inp out df e) := by
      rw [noDataProcessSlice_init]
      exact if_pos h
    have hlen : (noDataAdapted sg sq w inp out df e).length
        = (sliceE (withOutputInit df) e).length := by
      simp only [noDataAdapted, realignScores_length, sortTs_length]
    constructor
    · rw [hlen, sliceE_init_length]
    · exact filter_out_eq_of_scored hp hlen hm

unseal Rat.add Rat.mul Rat.sub Rat.inv in
/-- C3 (counterexample): at an original-timestamp position with no
imputed timestamp within the `min_delta` tolerance, the realignment step
writes a missing value (NaN), not the raw input column's value, as the
claim states.  Original sorted timestamps `[0, 10, 11, 12]` (whose
`min_delta` is `1`), stretched scores `5` on the imputed grid
`[0, 4, 8, 12]`: position `1` (timestamp `10`, raw input value `9`) is
more than `1` from every grid timestamp, and the value the code selects
for it is `none`, not `some 9`. -/
theorem C3_counterexample :
    minDelta [0, 10, 11, 12] = 1
    ∧ (∀ p ∈ [((0 : ℚ), (5 : ℚ)), (4, 5), (8, 5), (12, 5)],
        (1 : ℚ) < |10 - p.1|)
    ∧ (realignScores "temp" "score"
        [⟨3, 0, some 7, some 0⟩, ⟨3, 10, some 9, some 0⟩,
         ⟨3, 11, some 9, some 0⟩, ⟨3, 12, some 9, some 0⟩]
        [(0, 5), (4, 5), (8, 5), (12, 5)] 1)[1]? = some none
    ∧ (([⟨3, 0, some 7, some 0⟩, ⟨3, 10, some 9, some 0⟩,
         ⟨3, 11, some 9, some 0⟩, ⟨3, 12, some 9, some 0⟩] :
          List WRow)[1]?).map (fun r => r.val) = some (some 9)
    ∧ (some (none : Option ℚ) ≠ some (some (9 : ℚ))) := by
  refine ⟨by decide, by decide, by decide, by decide, by decide⟩

/-- C3 (amended): the merged score column (`output_item + '_y'`) always
exists, because the output column is present on both sides of the merge,
so the realignment output is exactly the merged nearest-neighbour column;
at every original-timestamp position with no imputed timestamp within the
tolerance, that column — and hence the value written to the output
column — is a missing value (NaN), and the raw-input fallback branch is
dead code. -/
theorem C3_unmatched_is_nan (inp out : String) (dfeOrig : List WRow)
    (right : List (ℚ × ℚ)) (tol : ℚ) (i : Nat) (t : ℚ) :
    realignScores inp out dfeOrig right tol
        = mergeAsofNearest (dfeOrig.map (fun r => r.ts)) right tol
    ∧ ((dfeOrig.map (fun r => r.ts))[i]? = some t →
        (∀ p ∈ right, tol < |t - p.1|) →
        (realignScores inp out dfeOrig right tol)[i]? = some none) := by
  refine ⟨realignScores_eq_merge inp out dfeOrig right tol, fun ht h => ?_⟩
  rw [realignScores_eq_merge]
  exact mergeAsofNearest_unmatched ht h

/-- C6: with step fixed at `1` and a signal longer than the window, the
sliding-window view has exactly `input_length − windowsize + 1` windows,
the CBLOF decision-score array (one score per window, for any model
honouring pyod's one-score-per-sample contract) has the same count, and
the Score Stretcher's knots are
`linspace(windowsize//2, n − windowsize//2 + 1, n − windowsize + 1)`. -/
theorem C6_kmeans_window_count (xs : List ℚ) (w : Nat)
    (cb : Nat → List (List ℚ) → List ℚ)
    (hw : max w 1 < xs.length)
    (hcb : ∀ n M, (cb n M).length = M.length) :
    (viewAsWindows xs (max w 1) 1).length = xs.length - max w 1 + 1
    ∧ (cb (if 1 < max w 1 then 40 else 20)
        (viewAsWindows xs (max w 1) 1)).length = xs.length - max w 1 + 1
    ∧ kmeansTimesTS (max w 1) xs.length
        = specKmeansCenters (max w 1) xs.length (xs.length - max w 1 + 1) := by
  have hlen : (viewAsWindows xs (max w 1) 1).length
      = xs.length - max w 1 + 1 := by
    simp only [viewAsWindows, List.length_map, List.length_range, Nat.div_one]
  exact ⟨hlen, by rw [hcb, hlen], rfl⟩

/-- C7: the Sampling Normalizer computes the minimum and the mean of
successive timestamp differences, and whenever either is exactly zero or
undefined (fewer than two records) the 5-second default is substituted
for it: directly for `mindelta`, and — because on a sorted index a zero or
undefined mean forces a zero or undefined minimum — also for `meandelta`,
whose code-level substitute is `mindelta`. -/
theorem C7_sampling_normalizer_default (ts : List ℚ)
    (hs : List.Sorted (· ≤ ·) ts) :
    ((minDeltaRaw ts = none ∨ minDeltaRaw ts = some 0) → minDelta ts = 5)
    ∧ ((meanDeltaRaw ts = none ∨ meanDeltaRaw ts = some 0) →
        meanDelta ts = 5) := by
  have hmin : ∀ h : (minDeltaRaw ts = none ∨ minDeltaRaw ts = some 0),
      minDelta ts = 5 := by
    rintro (h | h)
    all_goals unfold minDeltaRaw at h
    all_goals unfold minDelta
    all_goals rw [h]
    all_goals simp
  refine ⟨hmin, ?_⟩
  rintro (h | h)
  · have hd : diffsOf ts = [] := by
      by_contra hc
      unfold meanDeltaRaw at h
      cases hds : diffsOf ts with
      | nil => exact hc hds
      | cons a l => rw [hds] at h; cases h
    have hmd : minDelta ts = 5 := by
      apply hmin
      left
      unfold minDeltaRaw
      rw [hd]
      rfl
    unfold meanDelta
    rw [h, hmd]
  · have hne : diffsOf ts ≠ [] := by
      intro hc
      unfold meanDeltaRaw at h
      rw [hc] at h
      cases h
    have hmean : meanQ (diffsOf ts) = 0 := by
      unfold meanDeltaRaw at h
      cases hds : diffsOf ts with
      | nil => exact absurd hds hne
      | cons a l =>
          rw [hds] at h
          exact Option.some.inj h
    have hsum : (diffsOf ts).sum = 0 := by
      unfold meanQ at hmean
      rcases div_eq_zero_iff.mp hmean with h1 | h1
      · exact h1
      · exfalso
        have : (diffsOf ts).length = 0 := by exact_mod_cast h1
        exact hne (List.length_eq_zero.mp this)
    have hall : ∀ d ∈ diffsOf ts, d = 0 :=
      all_zero_of_sum_zero (diffsOf_nonneg hs) hsum
    obtain ⟨m, hm⟩ : ∃ m, (diffsOf ts).min? = some m := by
      cases hmin? : (diffsOf ts).min? with
      | none => exact absurd (List.min?_eq_none_iff.mp hmin?) hne
      | some m => exact ⟨m, rfl⟩
    have hm0 : m = 0 :=
      hall m (List.min?_mem (fun a b => min_choice a b) hm)
    have hmd : minDelta ts = 5 := by
      unfold minDelta
      rw [hm, hm0]
      simp
    unfold meanDelta
    rw [h, hmd]
    simp

/-! ## Witnesses -/

unseal Rat.add Rat.mul Rat.sub Rat.inv in
/-- Witness for C1: a concrete two-row entity with window size `5` is
skipped by all three transformers and its output stays `0`. -/
theorem C1_witness :
    ((spectralSignal [⟨1, 0, some 3⟩, ⟨1, 1, some 4⟩] 1).length ≤ max 5 1)
    ∧ ((noDataSignal [⟨1, 0, some 3⟩, ⟨1, 1, some 4⟩] 1).length ≤ max 5 1)
    ∧ (∀ r ∈ spectralExecute (fun _ _ _ => ([], [], [])) id id 5 "temp"
        "score" [⟨1, 0, some 3⟩, ⟨1, 1, some 4⟩], r.entity = 1 → r.out = some 0)
    ∧ (∀ r ∈ noDataExecute (fun _ _ _ => ([], [], [])) id 5 "temp" "score"
        [⟨1, 0, some 3⟩, ⟨1, 1, some 4⟩], r.entity = 1 → r.out = some 0)
    ∧ (∀ r ∈ kmeansExecute (fun _ M => M.map (fun _ => 0)) 5 "temp" "score"
        [⟨1, 0, some 3⟩, ⟨1, 1, some 4⟩], r.entity = 1 → r.out = some 0) :=
  ⟨by decide, by decide,
   (C1_short_signal_default (fun _ _ _ => ([], [], [])) id id
     (fun _ M => M.map (fun _ => 0)) 5 "temp" "score"
     [⟨1, 0, some 3⟩, ⟨1, 1, some 4⟩] 1).1 (by decide),
   (C1_short_signal_default (fun _ _ _ => ([], [], [])) id id
     (fun _ M => M.map (fun _ => 0)) 5 "temp" "score"
     [⟨1, 0, some 3⟩, ⟨1, 1, some 4⟩] 1).2.1 (by decide),
   (C1_short_signal_default (fun _ _ _ => ([], [], [])) id id
     (fun _ M => M.map (fun _ => 0)) 5 "temp" "score"
     [⟨1, 0, some 3⟩, ⟨1, 1, some 4⟩] 1).2.2 (by decide)⟩

unseal Rat.add Rat.mul Rat.sub Rat.inv in
/-- Witness for C2: a concrete two-row entity with window size `1` is
scored by both cited transformers; its realigned score list has the
slice's length and lands exactly in its rows. -/
theorem C2_witness :
    (max 1 1 < (spectralSignal [⟨0, 0, some 1⟩, ⟨0, 1, some 2⟩] 0).length)
    ∧ (max 1 1 < (noDataSignal [⟨0, 0, some 1⟩, ⟨0, 1, some 2⟩] 0).length)
    ∧ ((spectralAdapted (fun _ _ _ => ([], [], [])) id id 1 "temp" "score"
          [⟨0, 0, some 1⟩, ⟨0, 1, some 2⟩] 0).length
        = (([⟨0, 0, some 1⟩, ⟨0, 1, some 2⟩] : List Row).filter
            (fun r => r.entity == 0)).length
      ∧ ((spectralExecute (fun _ _ _ => ([], [], [])) id id 1 "temp" "score"
            [⟨0, 0, some 1⟩, ⟨0, 1, some 2⟩]).filter
              (fun r => r.entity == 0)).map (fun r => r.out)
          = spectralAdapted (fun _ _ _ => ([], [], [])) id id 1 "temp"
              "score" [⟨0, 0, some 1⟩, ⟨0, 1, some 2⟩] 0)
    ∧ ((noDataAdapted (fun _ _ _ => ([], [], [])) id 1 "temp" "score"
          [⟨0, 0, some 1⟩, ⟨0, 1, some 2⟩] 0).length
        = (([⟨0, 0, some 1⟩, ⟨0, 1, some 2⟩] : List Row).filter
            (fun r => r.entity == 0)).length
      ∧ ((noDataExecute (fun _ _ _ => ([], [], [])) id 1 "temp" "score"
            [⟨0, 0, some 1⟩, ⟨0, 1, some 2⟩]).filter
              (fun r => r.entity == 0)).map (fun r => r.out)
          = noDataAdapted (fun _ _ _ => ([], [], [])) id 1 "temp" "score"
              [⟨0, 0, some 1⟩, ⟨0, 1, some 2⟩] 0) :=
  ⟨by decide, by decide,
   (C2_realignment_row_identity (fun _ _ _ => ([], [], [])) id id 1 "temp"
     "score" [⟨0, 0, some 1⟩, ⟨0, 1, some 2⟩] 0).2.2.1 (by decide),
   (C2_realignment_row_identity (fun _ _ _ => ([], [], [])) id id 1 "temp"
     "score" [⟨0, 0, some 1⟩, ⟨0, 1, some 2⟩] 0).2.2.2 (by decide)⟩

unseal Rat.add Rat.mul Rat.sub Rat.inv in
/-- Witness for C3 (amended): at the concrete unmatched position of the
counterexample scenario, the realignment step yields a missing value. -/
theorem C3_witness :
    ((([⟨3, 0, some 7, some 0⟩, ⟨3, 10, some 9, some 0⟩,
        ⟨3, 11, some 9, some 0⟩, ⟨3, 12, some 9, some 0⟩] : List WRow).map
          (fun r => r.ts))[1]? = some 10)
    ∧ (∀ p ∈ [((0 : ℚ), (5 : ℚ)), (4, 5), (8, 5), (12, 5)],
        (1 : ℚ) < |10 - p.1|)
    ∧ (realignScores "temp" "score"
        [⟨3, 0, some 7, some 0⟩, ⟨3, 10, some 9, some 0⟩,
         ⟨3, 11, some 9, some 0⟩, ⟨3, 12, some 9, some 0⟩]
        [(0, 5), (4, 5), (8, 5), (12, 5)] 1)[1]? = some none :=
  ⟨by decide, by decide,
   (C3_unmatched_is_nan "temp" "score"
     [⟨3, 0, some 7, some 0⟩, ⟨3, 10, some 9, some 0⟩,
      ⟨3, 11, some 9, some 0⟩, ⟨3, 12, some 9, some 0⟩]
     [(0, 5), (4, 5), (8, 5), (12, 5)] 1 1 10).2 (by decide) (by decide)⟩

unseal Rat.add Rat.mul Rat.sub Rat.inv in
/-- Witness for C6: signal `[1, 2, 3]`, window size `2`, and a CBLOF model
that scores every window `0`. -/
theorem C6_witness :
    (max 2 1 < ([1, 2, 3] : List ℚ).length)
    ∧ (∀ n M, (((fun _ M => M.map (fun _ => (0 : ℚ))) :
        Nat → List (List ℚ) → List ℚ) n M).length = M.length)
    ∧ ((viewAsWindows [1, 2, 3] (max 2 1) 1).length
          = ([1, 2, 3] : List ℚ).length - max 2 1 + 1
      ∧ (((fun _ M => M.map (fun _ => (0 : ℚ))) :
            Nat → List (List ℚ) → List ℚ) (if 1 < max 2 1 then 40 else 20)
          (viewAsWindows [1, 2, 3] (max 2 1) 1)).length
          = ([1, 2, 3] : List ℚ).length - max 2 1 + 1
      ∧ kmeansTimesTS (max 2 1) ([1, 2, 3] : List ℚ).length
          = specKmeansCenters (max 2 1) ([1, 2, 3] : List ℚ).length
              (([1, 2, 3] : List ℚ).length - max 2 1 + 1)) :=
  ⟨by decide, fun n M => by simp,
   C6_kmeans_window_count [1, 2, 3] 2 (fun _ M => M.map (fun _ => (0 : ℚ)))
     (by decide) (fun n M => by simp)⟩

unseal Rat.add Rat.mul Rat.sub Rat.inv in
/-- Witness for C7: the sorted index `[1, 1]` has a zero minimum and a
zero mean of successive differences, and both resolve to the 5-second
default. -/
theorem C7_witness :
    List.Sorted (· ≤ ·) [(1 : ℚ), 1]
    ∧ (minDeltaRaw [(1 : ℚ), 1] = none ∨ minDeltaRaw [(1 : ℚ), 1] = some 0)
    ∧ (meanDeltaRaw [(1 : ℚ), 1] = none ∨ meanDeltaRaw [(1 : ℚ), 1] = some 0)
    ∧ minDelta [(1 : ℚ), 1] = 5
    ∧ meanDelta [(1 : ℚ), 1] = 5 :=
  ⟨by decide, by decide, by decide,
   (C7_sampling_normalizer_default [(1 : ℚ), 1] (by decide)).1 (by decide),
   (C7_sampling_normalizer_default [(1 : ℚ), 1] (by decide)).2 (by decide)⟩

end Anomaly
